/-
  Verification of `botorch/optim/fit.py`.

  The file models the two model-fitting loops `fit_torch` (Loop A, lines
  29-94) and `fit_scipy` (Loop B, lines 97-161) together with the scipy
  objective adapter `_scipy_objective_and_grad` (lines 164-187).

  Shallow embedding conventions:
  - tensors are flat lists of rationals (`List Rat`); machine floats are
    modelled by `Rat` since none of the checked claims concerns rounding;
  - the external collaborators (the gpytorch forward/backward oracle, the
    torch optimizer's `step`, the scipy `minimize` routine, and the wall
    clock) are abstracted as explicit oracle parameters;
  - the helpers `module_to_array` / `set_params_with_array` are imported
    by fit.py from `botorch.optim.numpy_converter`, which is outside this
    source slice; they are modelled from the specification's Parameter
    Codec contract (spec section 4.1) and are marked as such;
  - the `while not converged` loop of `fit_torch` is given explicit fuel;
    the returned flag records whether the convergence predicate fired
    (`false` means the fuel ran out with the loop still running).
-/
import Mathlib

/-- The `OptimizationIteration` record (fit.py lines 23-26).  The Python
field `fun` is a Lean keyword and is rendered `fval`. -/
structure OptimizationIteration where
  itr : Nat
  fval : Rat
  time : Rat
  deriving DecidableEq

/-- External collaborators of Loop A (`fit_torch`): `mllVals` is the batch
of marginal log-likelihood values `mll(output, train_targets, *train_inputs)`
produced by the forward pass at the current parameters (line 77 before the
negated sum), and `step` is the effect of one `optimizer.step()` call
(line 86) on the parameters.  The parameter state is an abstract type. -/
structure TorchEnv (P : Type) where
  mllVals : P → List Rat
  step : P → P

/-- Observable state of the `fit_torch` while-loop (fit.py lines 63-93):
current parameters, the loss and parameter trajectories, the tracked
iteration records, the printed progress lines as `(iteration index, loss)`
pairs, the loss-trajectory length seen by each `check_convergence` call,
and the iteration counter `i`. -/
structure FitState (P : Type) where
  theta : P
  lossTraj : List Rat
  paramTraj : List P
  iterations : List OptimizationIteration
  printed : List (Nat × Rat)
  checkCalls : List Nat
  i : Nat

/-- Loss at parameters `t`: `-mll(output, train_targets, *train_inputs).sum()`
(fit.py line 77) — the negative MLL summed across the batch dimension. -/
def lossAt {P : Type} (env : TorchEnv P) (t : P) : Rat :=
  -(env.mllVals t).sum

/-- One pass of the `fit_torch` while-loop body (fit.py lines 74-93):
clear gradients and run forward/backward (folded into the oracle), append
the loss and a parameter snapshot to the trajectories, print a progress
line when `disp and (i % 10 == 0 or i == maxiter - 1)`, append an
`OptimizationIteration` when tracking, apply `optimizer.step()`, increment
`i`, and record the trajectory length passed to `check_convergence`. -/
def fitTorchPass {P : Type} (env : TorchEnv P) (disp track : Bool) (maxiter : Int)
    (clock : Nat → Rat) (s : FitState P) : FitState P :=
  let loss := lossAt env s.theta
  { theta := env.step s.theta
    lossTraj := s.lossTraj ++ [loss]
    paramTraj := s.paramTraj ++ [s.theta]
    iterations :=
      if track then s.iterations ++ [⟨s.i, loss, clock s.i⟩] else s.iterations
    printed :=
      if disp && (s.i % 10 == 0 || (s.i : Int) == maxiter - 1) then
        s.printed ++ [(s.i, loss)]
      else s.printed
    checkCalls := s.checkCalls ++ [s.lossTraj.length + 1]
    i := s.i + 1 }

/-- The `while not converged` loop of `fit_torch` (fit.py lines 73-93).
`check` is the external `check_convergence` collaborator, receiving the
loss trajectory, the parameter trajectory and `max_iter=maxiter` (the
`options` argument is always the empty dict in the source and is folded
away).  `converged` starts `False`, so the body always runs before the
first check.  `fuel` bounds the number of passes; the Boolean result
records whether the convergence predicate fired. -/
def fitTorchLoop {P : Type} (env : TorchEnv P) (disp track : Bool) (maxiter : Int)
    (clock : Nat → Rat) (check : List Rat → List P → Int → Bool) :
    Nat → FitState P → FitState P × Bool
  | 0, s => (s, false)
  | fuel + 1, s =>
    let s1 := fitTorchPass env disp track maxiter clock s
    if check s1.lossTraj s1.paramTraj maxiter then (s1, true)
    else fitTorchLoop env disp track maxiter clock check fuel s1

/-- Initial loop state of `fit_torch` (fit.py lines 63-72): empty
trajectories, `i = 0`, no records printed or tracked yet. -/
def initState {P : Type} (t0 : P) : FitState P := ⟨t0, [], [], [], [], [], 0⟩

/-- Run of the `fit_torch` loop from the initial state. -/
def fitTorchRun {P : Type} (env : TorchEnv P) (t0 : P) (disp track : Bool)
    (maxiter : Int) (clock : Nat → Rat) (check : List Rat → List P → Int → Bool)
    (fuel : Nat) : FitState P × Bool :=
  fitTorchLoop env disp track maxiter clock check fuel (initState t0)

/-- The value returned by `fit_torch` (fit.py line 94):
`return mll, iterations if track_iterations else None`. -/
def fit_torch {P : Type} (env : TorchEnv P) (t0 : P) (disp track : Bool)
    (maxiter : Int) (clock : Nat → Rat) (check : List Rat → List P → Int → Bool)
    (fuel : Nat) : P × Option (List OptimizationIteration) :=
  ((fitTorchRun env t0 disp track maxiter clock check fuel).1.theta,
    if track then some (fitTorchRun env t0 disp track maxiter clock check fuel).1.iterations
    else none)

/-- A convergence predicate that returns true exactly when the iteration
count (the length of the loss trajectory at check time) has reached the
configured maximum `M`; used to state claim C1. -/
def reachesMax {P : Type} (M : Nat) (lossTraj : List Rat) (_ : List P) (_ : Int) :
    Bool :=
  lossTraj.length == M

/-- The `TorchAttr` descriptor from `botorch.optim.numpy_converter`: the
per-parameter shape record held in the property dictionary (dtype and
device are opaque to every checked claim and are omitted). -/
structure TorchAttr where
  shape : List Nat
  deriving DecidableEq

/-- Element count of a descriptor: `shape.numel()`. -/
def TorchAttr.numel (a : TorchAttr) : Nat := a.shape.prod

/-- A model parameter tensor: its shape, flattened values, and accumulated
gradient (`None` when no gradient was ever produced). -/
structure PTensor where
  shape : List Nat
  values : List Rat
  grad : Option (List Rat)
  deriving DecidableEq

/-- The structured model-likelihood object as the adapter sees it: the
stable ordered collection of named parameters (`mll.named_parameters()`). -/
structure MLLState where
  params : List (String × PTensor)
  deriving DecidableEq

/-- Named parameter values of a model state (the part of the state the
forward pass can depend on). -/
def MLLState.vals (m : MLLState) : List (String × List Rat) :=
  m.params.map (fun p => (p.1, p.2.values))

/-- External collaborators of the scipy objective adapter: the forward
pass producing the batch of MLL values from the parameter values, and
reverse-mode differentiation producing the gradient contribution of the
loss for each named parameter (`none` when the parameter does not
influence the loss). -/
structure ScipyEnv where
  mllVals : List (String × List Rat) → List Rat
  backward : List (String × List Rat) → String → Option (List Rat)

/-- Elementwise sum of two flat gradients (gradient accumulation). -/
def addVec (a b : List Rat) : List Rat := List.zipWith (· + ·) a b

/-- Effect of `mll.zero_grad()`: every already-materialized gradient is
zeroed in place; parameters that never received a gradient keep `None`. -/
def zeroGrad (m : MLLState) : MLLState :=
  ⟨m.params.map (fun p =>
    (p.1, { p.2 with grad := p.2.grad.map (fun g => g.map (fun _ => (0 : Rat))) }))⟩

/-- Effect of `loss.backward()`: each parameter whose backward contribution
exists accumulates it into its gradient buffer; parameters with no
contribution are left untouched. -/
def backwardStep (env : ScipyEnv) (m : MLLState) : MLLState :=
  ⟨m.params.map (fun p =>
    (p.1, { p.2 with grad :=
      match env.backward m.vals p.1 with
      | none => p.2.grad
      | some g => some (addVec (p.2.grad.getD (List.replicate g.length 0)) g) }))⟩

/-- Write `v` into the values of the parameter named `n`, in place,
preserving the gradient buffer and the tensor structure. -/
def setVals (params : List (String × PTensor)) (n : String) (v : List Rat) :
    List (String × PTensor) :=
  params.map (fun p => if p.1 = n then (p.1, { p.2 with values := v }) else p)

/-- Distribute consecutive slices of the flat vector `x` into the named
parameters, following the property dictionary order. -/
def writeParams (params : List (String × PTensor)) (x : List Rat) :
    List (String × TorchAttr) → List (String × PTensor)
  | [] => params
  | e :: rest =>
    writeParams (setVals params e.1 (x.take e.2.numel)) (x.drop e.2.numel) rest

/-- Modelled from the spec: `set_params_with_array` is imported by fit.py
from `botorch.optim.numpy_converter`, which is not part of this source
slice.  Per the Parameter Codec decode contract (spec section 4.1) it
slices the flat vector in property-dictionary order, writes each slice
into the parameter of that name in place, and fails with ShapeMismatch —
leaving the collection unmodified — when the vector length differs from
the sum of descriptor element counts. -/
def set_params_with_array (mll : MLLState) (x : List Rat)
    (pd : List (String × TorchAttr)) : Option MLLState :=
  if x.length = (pd.map (fun e => e.2.numel)).sum then
    some ⟨writeParams mll.params x pd⟩
  else none

/-- Modelled from the spec: `module_to_array` is imported by fit.py from
`botorch.optim.numpy_converter`, which is not part of this source slice.
Per the Parameter Codec encode contract (spec section 4.1) it iterates the
structured parameters in their stable order, emitting the concatenated
flattened values and the property dictionary of per-parameter descriptors.
Bounds handling is omitted here: bounds only parameterize the external
optimizer, which is abstracted as an oracle. -/
def module_to_array (mll : MLLState) : List Rat × List (String × TorchAttr) :=
  ((mll.params.map (fun p => p.2.values)).flatten,
   mll.params.map (fun p => (p.1, ⟨p.2.shape⟩)))

/-- The gradient slice the adapter emits for one property-dictionary entry
(fit.py lines 179-185): the parameter's accumulated gradient if present,
otherwise a zero vector of the descriptor's element count; `none` models
the `KeyError` raised when the name is missing from `named_parameters`. -/
def gradPieceOf (m : MLLState) (e : String × TorchAttr) : Option (List Rat) :=
  match m.params.lookup e.1 with
  | none => none
  | some t =>
    some (match t.grad with
      | none => List.replicate e.2.numel 0
      | some g => g)

/-- The gradient slice with a default, used only to state closed forms. -/
def gradPieceD (m : MLLState) (e : String × TorchAttr) : List Rat :=
  (gradPieceOf m e).getD []

/-- The per-parameter gradient slices assembled in property-dictionary
order (the `for p_name in property_dict` loop, fit.py lines 179-185). -/
def gradAssembly (m : MLLState) : List (String × TorchAttr) → Option (List (List Rat))
  | [] => some []
  | e :: rest =>
    match gradPieceOf m e, gradAssembly m rest with
    | some g, some gs => some (g :: gs)
    | _, _ => none

/-- The scipy objective adapter `_scipy_objective_and_grad` (fit.py lines
164-187): decode `x` into the model, clear gradients, run the forward pass
and compute the negated summed MLL, back-propagate, assemble the flat
gradient in property-dictionary order with the zero policy for absent
gradients, clear gradients again, and return the loss, the concatenated
gradient, and the mutated model state.  `none` models a propagated
exception (ShapeMismatch or a missing parameter name). -/
def scipy_objective_and_grad (env : ScipyEnv) (x : List Rat) (mll : MLLState)
    (pd : List (String × TorchAttr)) : Option ((Rat × List Rat) × MLLState) :=
  match set_params_with_array mll x pd with
  | none => none
  | some m1 =>
    let m2 := zeroGrad m1
    let loss := -(env.mllVals m2.vals).sum
    let m3 := backwardStep env m2
    match gradAssembly m3 pd with
    | none => none
    | some pieces => some ((loss, pieces.flatten), zeroGrad m3)

/-- The external `scipy.optimize.minimize` routine abstracted as an
oracle: the points at which it evaluates the objective (in order), the
points at which it invokes the per-iteration callback (in order, only
used when a callback is supplied), and the final vector `res.x`. -/
structure MinimizeOracle where
  evalPoints : List (List Rat)
  cbPoints : List (List Rat)
  resx : List Rat

/-- State threading of the objective evaluations performed inside
`minimize`: each evaluation mutates the model in place. -/
def runEvals (env : ScipyEnv) (pd : List (String × TorchAttr)) :
    MLLState → List (List Rat) → Option MLLState
  | m, [] => some m
  | m, x :: rest =>
    match scipy_objective_and_grad env x m pd with
    | none => none
    | some r => runEvals env pd r.2 rest

/-- The post-minimize tracking loop of `fit_scipy` (fit.py lines 151-157):
re-evaluate the adapter at every callback-recorded vector `xs[i]`, pairing
the re-evaluated objective with the recorded elapsed time `ts[i]`.  Beside
the records and the final model state it returns the list of model states
produced by each re-evaluation (the in-place writes this loop performs). -/
def buildIterations (env : ScipyEnv) (pd : List (String × TorchAttr))
    (clock : Nat → Rat) :
    Nat → MLLState → List (List Rat) →
      Option (List OptimizationIteration × MLLState × List MLLState)
  | _, m, [] => some ([], m, [])
  | i, m, x :: rest =>
    match scipy_objective_and_grad env x m pd with
    | none => none
    | some r =>
      match buildIterations env pd clock (i + 1) r.2 rest with
      | none => none
      | some tail => some (⟨i, r.1.1, clock i⟩ :: tail.1, tail.2.1, r.2 :: tail.2.2)

/-- The `fit_scipy` routine (fit.py lines 97-161): encode the module,
run `minimize` with the adapter as objective (its evaluations thread the
model state), collect the callback-recorded vectors (`xs` stays empty when
tracking is off, since no callback is passed), build the tracked iteration
records by re-evaluation, then decode `res.x` into the model as the final
write, and return the model, the (always present) iteration list, and the
trace of model states written during the tracking re-evaluation. -/
def fit_scipy (env : ScipyEnv) (oracle : MinimizeOracle) (clock : Nat → Rat)
    (mll : MLLState) (track_iterations : Bool) :
    Option (MLLState × Option (List OptimizationIteration) × List MLLState) :=
  let pd := (module_to_array mll).2
  let xs := if track_iterations then oracle.cbPoints else []
  match runEvals env pd mll oracle.evalPoints with
  | none => none
  | some m1 =>
    match buildIterations env pd clock 0 m1 xs with
    | none => none
    | some r =>
      match set_params_with_array r.2.1 oracle.resx pd with
      | none => none
      | some m2 => some (m2, some r.1, r.2.2)

/-- Concrete Loop A oracle for witnesses: scalar parameter, forward pass
returns the parameter itself, a step adds one. -/
def envT : TorchEnv Rat := ⟨fun t => [t], fun t => t + 1⟩

/-- Concrete constant clock for witnesses. -/
def clock0 : Nat → Rat := fun _ => 0

/-- Concrete convergence predicate for witnesses: converge immediately. -/
def checkTrue : List Rat → List Rat → Int → Bool := fun _ _ _ => true

/-- Concrete adapter oracle for witnesses: constant batch of two MLL
values; only parameter "a" influences the loss, "b" is disconnected. -/
def envS : ScipyEnv :=
  ⟨fun _ => [3, 4], fun _ n => if n = "a" then some [1] else none⟩

/-- Concrete two-parameter model state for witnesses. -/
def mllW : MLLState := ⟨[("a", ⟨[1], [0], none⟩), ("b", ⟨[2], [0, 0], none⟩)]⟩

/-- Concrete minimize oracle for witnesses: one objective evaluation, one
callback invocation, final vector `[7, 8, 9]`. -/
def oracleW : MinimizeOracle := ⟨[[1, 2, 3]], [[4, 5, 6]], [7, 8, 9]⟩

/-- Property dictionary of `mllW`. -/
def pdW : List (String × TorchAttr) := [("a", ⟨[1]⟩), ("b", ⟨[2]⟩)]

/-- A concrete flat vector matching `pdW`. -/
def xW : List Rat := [1, 2, 3]

/-- Model state after decoding `xW` into `mllW`. -/
def m1W : MLLState := ⟨[("a", ⟨[1], [1], none⟩), ("b", ⟨[2], [2, 3], none⟩)]⟩

/-- Model state returned by the adapter at the witness inputs. -/
def m4W : MLLState := ⟨[("a", ⟨[1], [1], some [0]⟩), ("b", ⟨[2], [2, 3], none⟩)]⟩

/-- Model state written during the tracked re-evaluation at the witness
inputs: it holds the callback-recorded vector `[4, 5, 6]`. -/
def midW : MLLState := ⟨[("a", ⟨[1], [4], some [0]⟩), ("b", ⟨[2], [5, 6], none⟩)]⟩

/-- Final model state at the witness inputs: it holds `res.x = [7, 8, 9]`. -/
def finW : MLLState := ⟨[("a", ⟨[1], [7], some [0]⟩), ("b", ⟨[2], [8, 9], none⟩)]⟩

theorem fitTorchPass_lossTraj_length {P : Type} (env : TorchEnv P)
    (disp track : Bool) (maxiter : Int) (clock : Nat → Rat) (s : FitState P) :
    (fitTorchPass env disp track maxiter clock s).lossTraj.length =
      s.lossTraj.length + 1 := by
  simp [fitTorchPass]

theorem iterate_pass_i {P : Type} (env : TorchEnv P) (disp track : Bool)
    (maxiter : Int) (clock : Nat → Rat) (t0 : P) (k : Nat) :
    ((fitTorchPass env disp track maxiter clock)^[k] (initState t0)).i = k := by
  induction k with
  | zero => rfl
  | succ k ih =>
    rw [Function.iterate_succ_apply']
    show ((fitTorchPass env disp track maxiter clock)^[k] (initState t0)).i + 1 = k + 1
    rw [ih]

theorem iterate_pass_theta {P : Type} (env : TorchEnv P) (disp track : Bool)
    (maxiter : Int) (clock : Nat → Rat) (t0 : P) (k : Nat) :
    ((fitTorchPass env disp track maxiter clock)^[k] (initState t0)).theta =
      env.step^[k] t0 := by
  induction k with
  | zero => rfl
  | succ k ih =>
    rw [Function.iterate_succ_apply', Function.iterate_succ_apply']
    show env.step ((fitTorchPass env disp track maxiter clock)^[k] (initState t0)).theta =
      env.step (env.step^[k] t0)
    rw [ih]

theorem iterate_pass_lossTraj {P : Type} (env : TorchEnv P) (disp track : Bool)
    (maxiter : Int) (clock : Nat → Rat) (t0 : P) (k : Nat) :
    ((fitTorchPass env disp track maxiter clock)^[k] (initState t0)).lossTraj =
      (List.range k).map (fun j => lossAt env (env.step^[j] t0)) := by
  induction k with
  | zero => rfl
  | succ k ih =>
    rw [Function.iterate_succ_apply']
    show ((fitTorchPass env disp track maxiter clock)^[k] (initState t0)).lossTraj ++
        [lossAt env ((fitTorchPass env disp track maxiter clock)^[k] (initState t0)).theta] = _
    rw [ih, iterate_pass_theta, List.range_succ, List.map_append]
    simp

theorem iterate_pass_lossTraj_length {P : Type} (env : TorchEnv P)
    (disp track : Bool) (maxiter : Int) (clock : Nat → Rat) (t0 : P) (k : Nat) :
    ((fitTorchPass env disp track maxiter clock)^[k] (initState t0)).lossTraj.length = k := by
  rw [iterate_pass_lossTraj]
  simp

theorem iterate_pass_paramTraj {P : Type} (env : TorchEnv P) (disp track : Bool)
    (maxiter : Int) (clock : Nat → Rat) (t0 : P) (k : Nat) :
    ((fitTorchPass env disp track maxiter clock)^[k] (initState t0)).paramTraj =
      (List.range k).map (fun j => env.step^[j] t0) := by
  induction k with
  | zero => rfl
  | succ k ih =>
    rw [Function.iterate_succ_apply']
    show ((fitTorchPass env disp track maxiter clock)^[k] (initState t0)).paramTraj ++
        [((fitTorchPass env disp track maxiter clock)^[k] (initState t0)).theta] = _
    rw [ih, iterate_pass_theta, List.range_succ, List.map_append]
    simp

theorem iterate_pass_iterations {P : Type} (env : TorchEnv P) (disp track : Bool)
    (maxiter : Int) (clock : Nat → Rat) (t0 : P) (k : Nat) :
    ((fitTorchPass env disp track maxiter clock)^[k] (initState t0)).iterations =
      if track then
        (List.range k).map
          (fun j => ⟨j, lossAt env (env.step^[j] t0), clock j⟩)
      else [] := by
  induction k with
  | zero => cases track <;> rfl
  | succ k ih =>
    rw [Function.iterate_succ_apply']
    show (if track then
        ((fitTorchPass env disp track maxiter clock)^[k] (initState t0)).iterations ++
          [⟨((fitTorchPass env disp track maxiter clock)^[k] (initState t0)).i,
            lossAt env ((fitTorchPass env disp track maxiter clock)^[k] (initState t0)).theta,
            clock ((fitTorchPass env disp track maxiter clock)^[k] (initState t0)).i⟩]
      else ((fitTorchPass env disp track maxiter clock)^[k] (initState t0)).iterations) = _
    rw [ih, iterate_pass_theta, iterate_pass_i]
    cases track with
    | false => simp
    | true => simp [List.range_succ]

theorem iterate_pass_printed {P : Type} (env : TorchEnv P) (disp track : Bool)
    (maxiter : Int) (clock : Nat → Rat) (t0 : P) (k : Nat) :
    ((fitTorchPass env disp track maxiter clock)^[k] (initState t0)).printed =
      if disp then
        ((List.range k).filter
            (fun (j : Nat) => j % 10 == 0 || (j : Int) == maxiter - 1)).map
          (fun j => (j, lossAt env (env.step^[j] t0)))
      else [] := by
  induction k with
  | zero => cases disp <;> rfl
  | succ k ih =>
    rw [Function.iterate_succ_apply']
    show (if disp &&
          (((fitTorchPass env disp track maxiter clock)^[k] (initState t0)).i % 10 == 0 ||
            (((fitTorchPass env disp track maxiter clock)^[k] (initState t0)).i : Int) == maxiter - 1) then
        ((fitTorchPass env disp track maxiter clock)^[k] (initState t0)).printed ++
          [(((fitTorchPass env disp track maxiter clock)^[k] (initState t0)).i,
            lossAt env ((fitTorchPass env disp track maxiter clock)^[k] (initState t0)).theta)]
      else ((fitTorchPass env disp track maxiter clock)^[k] (initState t0)).printed) = _
    rw [ih, iterate_pass_theta, iterate_pass_i]
    cases disp with
    | false => simp
    | true =>
      by_cases h : (k % 10 == 0 || (k : Int) == maxiter - 1) = true
      · simp only [h, Bool.true_and, if_pos, List.range_succ, List.filter_append,
          List.map_append]
        simp [List.filter, h]
      · rw [Bool.not_eq_true] at h
        simp only [h, Bool.true_and, Bool.false_eq_true, if_false, List.range_succ,
          List.filter_append, List.map_append]
        simp [List.filter, h]

theorem iterate_pass_checkCalls {P : Type} (env : TorchEnv P) (disp track : Bool)
    (maxiter : Int) (clock : Nat → Rat) (t0 : P) (k : Nat) :
    ((fitTorchPass env disp track maxiter clock)^[k] (initState t0)).checkCalls =
      (List.range k).map (fun j => j + 1) := by
  induction k with
  | zero => rfl
  | succ k ih =>
    rw [Function.iterate_succ_apply']
    show ((fitTorchPass env disp track maxiter clock)^[k] (initState t0)).checkCalls ++
        [((fitTorchPass env disp track maxiter clock)^[k] (initState t0)).lossTraj.length + 1] = _
    rw [ih, iterate_pass_lossTraj_length, List.range_succ, List.map_append]
    simp

theorem fitTorchLoop_eq_iterate {P : Type} (env : TorchEnv P) (disp track : Bool)
    (maxiter : Int) (clock : Nat → Rat) (check : List Rat → List P → Int → Bool) :
    ∀ (fuel : Nat) (s : FitState P), ∃ k, k ≤ fuel ∧ (1 ≤ fuel → 1 ≤ k) ∧
      (fitTorchLoop env disp track maxiter clock check fuel s).1 =
        (fitTorchPass env disp track maxiter clock)^[k] s := by
  intro fuel
  induction fuel with
  | zero => exact fun s => ⟨0, le_refl 0, fun h => absurd h (by omega), rfl⟩
  | succ fuel ih =>
    intro s
    by_cases h : check (fitTorchPass env disp track maxiter clock s).lossTraj
        (fitTorchPass env disp track maxiter clock s).paramTraj maxiter = true
    · refine ⟨1, by omega, fun _ => le_refl 1, ?_⟩
      simp [fitTorchLoop, h]
    · rw [Bool.not_eq_true] at h
      obtain ⟨k, hk, _, he⟩ := ih (fitTorchPass env disp track maxiter clock s)
      refine ⟨k + 1, by omega, fun _ => by omega, ?_⟩
      rw [Function.iterate_succ_apply]
      simp only [fitTorchLoop, h]
      simpa using he

theorem fitTorchLoop_reachesMax {P : Type} (env : TorchEnv P) (disp track : Bool)
    (maxiter : Int) (clock : Nat → Rat) (M : Nat) :
    ∀ (k : Nat) (s : FitState P) (fuel : Nat), 1 ≤ k → k ≤ fuel →
      s.lossTraj.length + k = M →
      fitTorchLoop env disp track maxiter clock (reachesMax M) fuel s =
        ((fitTorchPass env disp track maxiter clock)^[k] s, true) := by
  intro k
  induction k with
  | zero => omega
  | succ k ih =>
    intro s fuel _ hfuel hlen
    obtain ⟨f, rfl⟩ : ∃ f, fuel = f + 1 := ⟨fuel - 1, by omega⟩
    cases k with
    | zero =>
      have hc : reachesMax (P := P) M
          (fitTorchPass env disp track maxiter clock s).lossTraj
          (fitTorchPass env disp track maxiter clock s).paramTraj maxiter = true := by
        simp only [reachesMax, fitTorchPass_lossTraj_length]
        simp only [beq_iff_eq]
        omega
      simp [fitTorchLoop, hc]
    | succ k =>
      have hc : reachesMax (P := P) M
          (fitTorchPass env disp track maxiter clock s).lossTraj
          (fitTorchPass env disp track maxiter clock s).paramTraj maxiter = false := by
        simp only [reachesMax, fitTorchPass_lossTraj_length]
        simp only [beq_eq_false_iff_ne, ne_eq]
        omega
      have hrec := ih (fitTorchPass env disp track maxiter clock s) f (by omega)
        (by omega) (by rw [fitTorchPass_lossTraj_length]; omega)
      simp only [fitTorchLoop, hc, Bool.false_eq_true, if_false]
      rw [hrec, ← Function.iterate_succ_apply]

/-- C1: for Loop A (`fit_torch`), with a convergence predicate that
returns true exactly when the iteration count reaches a configured
maximum `M ≥ 1`, the loop converges after exactly `M` iterations; with
tracking enabled it returns exactly the `M` `OptimizationIteration`
records with indices `0..M-1` in order, and with tracking disabled it
returns `none` in place of the list. -/
theorem fit_torch_reachesMax_runs_exactly_M {P : Type} (env : TorchEnv P)
    (t0 : P) (disp track : Bool) (maxiter : Int) (clock : Nat → Rat)
    (M fuel : Nat) (hM : 1 ≤ M) (hfuel : M ≤ fuel) :
    (fitTorchRun env t0 disp track maxiter clock (reachesMax M) fuel).2 = true ∧
    (fitTorchRun env t0 disp track maxiter clock (reachesMax M) fuel).1.i = M ∧
    (fitTorchRun env t0 disp track maxiter clock (reachesMax M) fuel).1.lossTraj.length = M ∧
    fit_torch env t0 disp track maxiter clock (reachesMax M) fuel =
      (env.step^[M] t0,
        if track then
          some ((List.range M).map
            (fun j => ⟨j, lossAt env (env.step^[j] t0), clock j⟩))
        else none) := by
  have h0 : (initState t0 : FitState P).lossTraj.length + M = M := by
    simp [initState]
  have h := fitTorchLoop_reachesMax env disp track maxiter clock M M
    (initState t0) fuel hM hfuel h0
  have hrun : fitTorchRun env t0 disp track maxiter clock (reachesMax M) fuel =
      ((fitTorchPass env disp track maxiter clock)^[M] (initState t0), true) := h
  refine ⟨by rw [hrun], ?_, ?_, ?_⟩
  · rw [hrun]
    exact iterate_pass_i env disp track maxiter clock t0 M
  · rw [hrun]
    exact iterate_pass_lossTraj_length env disp track maxiter clock t0 M
  · simp only [fit_torch]
    rw [hrun]
    simp only [iterate_pass_theta, iterate_pass_iterations]
    cases track <;> simp

/-- C1 witness: a concrete run with `M = 2`, `fuel = 3`, tracking on. -/
theorem fit_torch_reachesMax_runs_exactly_M_witness :
    1 ≤ 2 ∧ 2 ≤ 3 ∧
      ((fitTorchRun envT 0 true true 5 clock0 (reachesMax 2) 3).2 = true ∧
        (fitTorchRun envT 0 true true 5 clock0 (reachesMax 2) 3).1.i = 2 ∧
        (fitTorchRun envT 0 true true 5 clock0 (reachesMax 2) 3).1.lossTraj.length = 2 ∧
        fit_torch envT 0 true true 5 clock0 (reachesMax 2) 3 =
          (envT.step^[2] 0,
            if true then
              some ((List.range 2).map
                (fun j => ⟨j, lossAt envT (envT.step^[j] 0), clock0 j⟩))
            else none)) :=
  ⟨by decide, by decide,
    fit_torch_reachesMax_runs_exactly_M envT 0 true true 5 clock0 2 3
      (by decide) (by decide)⟩

/-- C8: in Loop A (`fit_torch`) the progress lines containing the loss
value are emitted exactly at the iterations whose index is divisible by
ten or equals `maxiter - 1`, when the display flag is enabled; with the
flag disabled no progress output is produced.  Holds for every run of the
loop, whatever the convergence predicate does. -/
theorem fit_torch_progress_lines {P : Type} (env : TorchEnv P) (t0 : P)
    (disp track : Bool) (maxiter : Int) (clock : Nat → Rat)
    (check : List Rat → List P → Int → Bool) (fuel : Nat) :
    (fitTorchRun env t0 disp track maxiter clock check fuel).1.printed =
      if disp then
        ((List.range (fitTorchRun env t0 disp track maxiter clock check fuel).1.i).filter
            (fun (j : Nat) => j % 10 == 0 || (j : Int) == maxiter - 1)).map
          (fun j => (j, lossAt env (env.step^[j] t0)))
      else [] := by
  obtain ⟨k, -, -, he⟩ :=
    fitTorchLoop_eq_iterate env disp track maxiter clock check fuel (initState t0)
  have hrun : (fitTorchRun env t0 disp track maxiter clock check fuel).1 =
      (fitTorchPass env disp track maxiter clock)^[k] (initState t0) := he
  rw [hrun, iterate_pass_printed, iterate_pass_i]

/-- C9: for every maximum-iteration cap, including zero and negative
values, Loop A (`fit_torch`) executes at least one full iteration (loss
and parameter trajectory appends, and one optimizer step) before the
convergence predicate is consulted for the first time; the `j`-th
predicate consultation always sees `j + 1` completed iterations, so the
predicate is only ever evaluated after a completed iteration. -/
theorem fit_torch_runs_before_first_check {P : Type} (env : TorchEnv P)
    (t0 : P) (disp track : Bool) (maxiter : Int) (clock : Nat → Rat)
    (check : List Rat → List P → Int → Bool) (fuel : Nat) (hfuel : 1 ≤ fuel) :
    1 ≤ (fitTorchRun env t0 disp track maxiter clock check fuel).1.i ∧
    (fitTorchRun env t0 disp track maxiter clock check fuel).1.lossTraj.length =
      (fitTorchRun env t0 disp track maxiter clock check fuel).1.i ∧
    (fitTorchRun env t0 disp track maxiter clock check fuel).1.paramTraj.length =
      (fitTorchRun env t0 disp track maxiter clock check fuel).1.i ∧
    (fitTorchRun env t0 disp track maxiter clock check fuel).1.theta =
      env.step^[(fitTorchRun env t0 disp track maxiter clock check fuel).1.i] t0 ∧
    (fitTorchRun env t0 disp track maxiter clock check fuel).1.checkCalls =
      (List.range (fitTorchRun env t0 disp track maxiter clock check fuel).1.i).map
        (fun j => j + 1) ∧
    (fitTorchRun env t0 disp track maxiter clock check fuel).1.checkCalls.head? =
      some 1 := by
  obtain ⟨k, -, hk1, he⟩ :=
    fitTorchLoop_eq_iterate env disp track maxiter clock check fuel (initState t0)
  have hk := hk1 hfuel
  have hrun : (fitTorchRun env t0 disp track maxiter clock check fuel).1 =
      (fitTorchPass env disp track maxiter clock)^[k] (initState t0) := he
  rw [hrun, iterate_pass_i, iterate_pass_lossTraj_length, iterate_pass_paramTraj,
    iterate_pass_theta, iterate_pass_checkCalls]
  refine ⟨hk, rfl, by simp, rfl, rfl, ?_⟩
  obtain ⟨k, rfl⟩ : ∃ j, k = j + 1 := ⟨k - 1, by omega⟩
  rw [List.range_succ_eq_map]
  simp

/-- C9 witness: a concrete run with fuel 1 and a negative iteration cap. -/
theorem fit_torch_runs_before_first_check_witness :
    1 ≤ 1 ∧
      (1 ≤ (fitTorchRun envT 0 true true (-3) clock0 checkTrue 1).1.i ∧
        (fitTorchRun envT 0 true true (-3) clock0 checkTrue 1).1.lossTraj.length =
          (fitTorchRun envT 0 true true (-3) clock0 checkTrue 1).1.i ∧
        (fitTorchRun envT 0 true true (-3) clock0 checkTrue 1).1.paramTraj.length =
          (fitTorchRun envT 0 true true (-3) clock0 checkTrue 1).1.i ∧
        (fitTorchRun envT 0 true true (-3) clock0 checkTrue 1).1.theta =
          envT.step^[(fitTorchRun envT 0 true true (-3) clock0 checkTrue 1).1.i] 0 ∧
        (fitTorchRun envT 0 true true (-3) clock0 checkTrue 1).1.checkCalls =
          (List.range (fitTorchRun envT 0 true true (-3) clock0 checkTrue 1).1.i).map
            (fun j => j + 1) ∧
        (fitTorchRun envT 0 true true (-3) clock0 checkTrue 1).1.checkCalls.head? =
          some 1) :=
  ⟨by decide,
    fit_torch_runs_before_first_check envT 0 true true (-3) clock0 checkTrue 1
      (by decide)⟩

/-- C10: in Loop A (`fit_torch`) with tracking enabled, the `j`-th
recorded `OptimizationIteration` carries index `j` and an objective value
equal to the `j`-th entry of the loss trajectory, and that value is the
loss at the parameters reached after `j` optimizer steps — the pre-step
loss of iteration `j`, not the loss after its parameter update. -/
theorem fit_torch_tracked_loss_is_prestep {P : Type} (env : TorchEnv P)
    (t0 : P) (disp : Bool) (maxiter : Int) (clock : Nat → Rat)
    (check : List Rat → List P → Int → Bool) (fuel : Nat) (j : Nat)
    (a : OptimizationIteration)
    (h : (fitTorchRun env t0 disp true maxiter clock check fuel).1.iterations[j]? =
      some a) :
    a.itr = j ∧
    (fitTorchRun env t0 disp true maxiter clock check fuel).1.lossTraj[j]? =
      some a.fval ∧
    a.fval = -((env.mllVals (env.step^[j] t0)).sum) := by
  obtain ⟨k, -, -, he⟩ :=
    fitTorchLoop_eq_iterate env disp true maxiter clock check fuel (initState t0)
  have hrun : (fitTorchRun env t0 disp true maxiter clock check fuel).1 =
      (fitTorchPass env disp true maxiter clock)^[k] (initState t0) := he
  rw [hrun, iterate_pass_iterations] at h
  rw [if_pos rfl, List.getElem?_map] at h
  have hjk : j < k := by
    by_contra hge
    rw [List.getElem?_eq_none (by simpa using by omega : (List.range k).length ≤ j)] at h
    exact Option.noConfusion h
  rw [List.getElem?_range hjk] at h
  have ha : a = ⟨j, lossAt env (env.step^[j] t0), clock j⟩ :=
    (Option.some.inj h).symm
  subst ha
  refine ⟨rfl, ?_, rfl⟩
  rw [hrun, iterate_pass_lossTraj, List.getElem?_map, List.getElem?_range hjk]
  rfl

/-- C10 witness: a concrete tracked run, record index 0. -/
theorem fit_torch_tracked_loss_is_prestep_witness :
    (fitTorchRun envT 0 true true 5 clock0 checkTrue 1).1.iterations[0]? =
        some ⟨0, 0, 0⟩ ∧
      (⟨0, 0, 0⟩ : OptimizationIteration).itr = 0 ∧
        (fitTorchRun envT 0 true true 5 clock0 checkTrue 1).1.lossTraj[0]? =
          some (⟨0, 0, 0⟩ : OptimizationIteration).fval ∧
        (⟨0, 0, 0⟩ : OptimizationIteration).fval =
          -((envT.mllVals (envT.step^[0] 0)).sum) :=
  ⟨by with_unfolding_all decide,
    fit_torch_tracked_loss_is_prestep envT 0 true 5 clock0 checkTrue 1 0
      ⟨0, 0, 0⟩ (by with_unfolding_all decide)⟩

theorem zeroGrad_vals (m : MLLState) : (zeroGrad m).vals = m.vals := by
  simp [zeroGrad, MLLState.vals, List.map_map]

theorem zeroGrad_grads (m : MLLState) :
    ∀ p ∈ (zeroGrad m).params, ∀ g, p.2.grad = some g → ∀ v ∈ g, v = 0 := by
  intro p hp g hg v hv
  simp only [zeroGrad, List.mem_map] at hp
  obtain ⟨q, -, rfl⟩ := hp
  obtain ⟨g0, -, rfl⟩ := Option.map_eq_some'.mp hg
  simp only [List.mem_map] at hv
  obtain ⟨-, -, rfl⟩ := hv
  rfl

theorem gradPieceOf_isSome (m : MLLState) (e : String × TorchAttr) :
    (gradPieceOf m e).isSome = (m.params.lookup e.1).isSome := by
  unfold gradPieceOf
  cases m.params.lookup e.1 <;> rfl

theorem gradAssembly_eq_map (m : MLLState) :
    ∀ pd : List (String × TorchAttr), (∀ e ∈ pd, (gradPieceOf m e).isSome) →
      gradAssembly m pd = some (pd.map (gradPieceD m)) := by
  intro pd
  induction pd with
  | nil => intro _; rfl
  | cons e rest ih =>
    intro h
    obtain ⟨g, hg⟩ := Option.isSome_iff_exists.mp (h e (List.mem_cons_self e rest))
    have hrest := ih (fun x hx => h x (List.mem_cons_of_mem e hx))
    unfold gradAssembly
    rw [hg, hrest]
    simp [gradPieceD, hg]

theorem adapter_intro (env : ScipyEnv) (x : List Rat) (mll : MLLState)
    (pd : List (String × TorchAttr)) (m1 : MLLState) (pieces : List (List Rat))
    (hset : set_params_with_array mll x pd = some m1)
    (hga : gradAssembly (backwardStep env (zeroGrad m1)) pd = some pieces) :
    scipy_objective_and_grad env x mll pd =
      some ((-(env.mllVals (zeroGrad m1).vals).sum, pieces.flatten),
        zeroGrad (backwardStep env (zeroGrad m1))) := by
  unfold scipy_objective_and_grad
  rw [hset]
  simp [hga]

theorem adapter_elim (env : ScipyEnv) (x : List Rat) (mll : MLLState)
    (pd : List (String × TorchAttr)) (r : (Rat × List Rat) × MLLState)
    (h : scipy_objective_and_grad env x mll pd = some r) :
    ∃ m1 pieces,
      set_params_with_array mll x pd = some m1 ∧
      gradAssembly (backwardStep env (zeroGrad m1)) pd = some pieces ∧
      r = ((-(env.mllVals (zeroGrad m1).vals).sum, pieces.flatten),
        zeroGrad (backwardStep env (zeroGrad m1))) := by
  unfold scipy_objective_and_grad at h
  split at h
  · exact Option.noConfusion h
  · next m1 hset =>
    dsimp only at h
    split at h
    · exact Option.noConfusion h
    · next pieces hga =>
      exact ⟨m1, pieces, hset, hga, (Option.some.inj h).symm⟩

theorem fit_scipy_elim (env : ScipyEnv) (oracle : MinimizeOracle)
    (clock : Nat → Rat) (mll : MLLState) (track : Bool)
    (r : MLLState × Option (List OptimizationIteration) × List MLLState)
    (h : fit_scipy env oracle clock mll track = some r) :
    ∃ m1 b m2,
      runEvals env (module_to_array mll).2 mll oracle.evalPoints = some m1 ∧
      buildIterations env (module_to_array mll).2 clock 0 m1
        (if track then oracle.cbPoints else []) = some b ∧
      set_params_with_array b.2.1 oracle.resx (module_to_array mll).2 = some m2 ∧
      r = (m2, some b.1, b.2.2) := by
  unfold fit_scipy at h
  dsimp only at h
  cases track with
  | true =>
    have hxs : (if (true : Bool) = true then oracle.cbPoints else []) =
        oracle.cbPoints := rfl
    rw [hxs] at h ⊢
    split at h
    · exact Option.noConfusion h
    · next m1 h1 =>
      split at h
      · exact Option.noConfusion h
      · next b h2 =>
        split at h
        · exact Option.noConfusion h
        · next m2 h3 =>
          exact ⟨m1, b, m2, h1, h2, h3, (Option.some.inj h).symm⟩
  | false =>
    have hxs : (if (false : Bool) = true then oracle.cbPoints else []) =
        ([] : List (List Rat)) := rfl
    rw [hxs] at h ⊢
    split at h
    · exact Option.noConfusion h
    · next m1 h1 =>
      split at h
      · exact Option.noConfusion h
      · next b h2 =>
        split at h
        · exact Option.noConfusion h
        · next m2 h3 =>
          exact ⟨m1, b, m2, h1, h2, h3, (Option.some.inj h).symm⟩

theorem range_add_cons {α : Type} (i n : Nat) (f : Nat → α) :
    (List.range (n + 1)).map (fun j => f (i + j)) =
      f i :: (List.range n).map (fun j => f (i + 1 + j)) := by
  rw [List.range_succ_eq_map]
  simp only [List.map_cons, List.map_map, Nat.add_zero]
  refine congrArg _ ?_
  refine List.map_congr_left (fun j _ => ?_)
  show f (i + (j + 1)) = f (i + 1 + j)
  refine congrArg f (by omega)

theorem buildIterations_spec (env : ScipyEnv) (pd : List (String × TorchAttr))
    (clock : Nat → Rat) :
    ∀ (xs : List (List Rat)) (i : Nat) (m : MLLState)
      (r : List OptimizationIteration × MLLState × List MLLState),
      buildIterations env pd clock i m xs = some r →
      r.1.map OptimizationIteration.itr =
        (List.range xs.length).map (fun j => i + j) ∧
      r.1.map OptimizationIteration.time =
        (List.range xs.length).map (fun j => clock (i + j)) := by
  intro xs
  induction xs with
  | nil =>
    intro i m r h
    obtain rfl : (([], m, []) :
        List OptimizationIteration × MLLState × List MLLState) = r :=
      Option.some.inj h
    simp
  | cons x rest ih =>
    intro i m r h
    unfold buildIterations at h
    split at h
    · exact Option.noConfusion h
    · next q ha =>
      split at h
      · exact Option.noConfusion h
      · next tail hb =>
        obtain rfl : (⟨i, q.1.1, clock i⟩ :: tail.1, tail.2.1, q.2 :: tail.2.2) = r :=
          Option.some.inj h
        obtain ⟨h1, h2⟩ := ih (i + 1) q.2 tail hb
        constructor
        · show i :: tail.1.map OptimizationIteration.itr = _
          rw [h1, List.length_cons, range_add_cons i rest.length (fun j => j)]
        · show clock i :: tail.1.map OptimizationIteration.time = _
          rw [h2, List.length_cons, range_add_cons i rest.length clock]

theorem gradPieceOf_none_grad (m : MLLState) (n : String) (a : TorchAttr)
    (t : PTensor) (hn : m.params.lookup n = some t) (hgrad : t.grad = none) :
    gradPieceOf m (n, a) = some (List.replicate a.numel 0) := by
  simp only [gradPieceOf, hn, hgrad]

theorem gradPieceD_none_grad (m : MLLState) (n : String) (a : TorchAttr)
    (t : PTensor) (hn : m.params.lookup n = some t) (hgrad : t.grad = none) :
    gradPieceD m (n, a) = List.replicate a.numel 0 := by
  simp [gradPieceD, gradPieceOf_none_grad m n a t hn hgrad]

/-- C5: for every parameter present in the property dictionary whose
accumulated gradient after back-propagation is absent (it did not
influence the loss), the objective adapter raises no error and the
gradient slice it emits at that parameter's position is a zero vector of
exactly the descriptor's element count. -/
theorem adapter_zero_gradient_policy (env : ScipyEnv) (x : List Rat)
    (mll m1 : MLLState) (pd : List (String × TorchAttr)) (j : Nat)
    (n : String) (a : TorchAttr) (t : PTensor)
    (hset : set_params_with_array mll x pd = some m1)
    (hall : ∀ e ∈ pd,
      (((backwardStep env (zeroGrad m1)).params.lookup e.1).isSome) = true)
    (hj : pd[j]? = some (n, a))
    (hn : (backwardStep env (zeroGrad m1)).params.lookup n = some t)
    (hgrad : t.grad = none) :
    ∃ l g m', scipy_objective_and_grad env x mll pd = some ((l, g), m') ∧
      ∃ pieces : List (List Rat), g = pieces.flatten ∧ pieces.length = pd.length ∧
        pieces[j]? = some (List.replicate a.numel 0) := by
  have hga : gradAssembly (backwardStep env (zeroGrad m1)) pd =
      some (pd.map (gradPieceD (backwardStep env (zeroGrad m1)))) :=
    gradAssembly_eq_map _ pd (fun e he => by
      rw [gradPieceOf_isSome]
      exact hall e he)
  refine ⟨-(env.mllVals (zeroGrad m1).vals).sum,
    (pd.map (gradPieceD (backwardStep env (zeroGrad m1)))).flatten,
    zeroGrad (backwardStep env (zeroGrad m1)),
    adapter_intro env x mll pd m1 _ hset hga, ?_⟩
  refine ⟨pd.map (gradPieceD (backwardStep env (zeroGrad m1))), rfl, by simp, ?_⟩
  rw [List.getElem?_map, hj]
  simp [gradPieceD_none_grad (backwardStep env (zeroGrad m1)) n a t hn hgrad]

/-- C7: the objective adapter clears all accumulated gradients before
returning: in the model state it hands back, every parameter's gradient
buffer is either absent or identically zero, so no gradient state from
one evaluation is visible to the next call. -/
theorem adapter_clears_gradients (env : ScipyEnv) (x : List Rat)
    (mll : MLLState) (pd : List (String × TorchAttr))
    (r : (Rat × List Rat) × MLLState)
    (h : scipy_objective_and_grad env x mll pd = some r) :
    ∀ p ∈ r.2.params, ∀ g, p.2.grad = some g → ∀ v ∈ g, v = 0 := by
  obtain ⟨m1, pieces, -, -, hr⟩ := adapter_elim env x mll pd r h
  subst hr
  exact zeroGrad_grads (backwardStep env (zeroGrad m1))

/-- C6: in both fit loops the scalar loss at each step is the negative
marginal log likelihood summed (not averaged) across the batch dimension:
every entry of Loop A's loss trajectory is the negated sum of the batch
MLL values at the pre-step parameters, and the loss the objective adapter
returns is the negated sum of the batch MLL values at the decoded
parameters. -/
theorem loss_is_negative_summed_mll {P : Type} (env : TorchEnv P) (t0 : P)
    (disp track : Bool) (maxiter : Int) (clockA : Nat → Rat)
    (check : List Rat → List P → Int → Bool) (fuel : Nat)
    (senv : ScipyEnv) (x : List Rat) (mll : MLLState)
    (pd : List (String × TorchAttr)) (r : (Rat × List Rat) × MLLState)
    (h : scipy_objective_and_grad senv x mll pd = some r) :
    (fitTorchRun env t0 disp track maxiter clockA check fuel).1.lossTraj =
      (List.range (fitTorchRun env t0 disp track maxiter clockA check fuel).1.i).map
        (fun j => -((env.mllVals (env.step^[j] t0)).sum)) ∧
    ∃ m1, set_params_with_array mll x pd = some m1 ∧
      r.1.1 = -((senv.mllVals m1.vals).sum) := by
  constructor
  · obtain ⟨k, -, -, he⟩ :=
      fitTorchLoop_eq_iterate env disp track maxiter clockA check fuel (initState t0)
    have hrun : (fitTorchRun env t0 disp track maxiter clockA check fuel).1 =
        (fitTorchPass env disp track maxiter clockA)^[k] (initState t0) := he
    rw [hrun, iterate_pass_lossTraj, iterate_pass_i]
    rfl
  · obtain ⟨m1, pieces, hset, hga, hr⟩ := adapter_elim senv x mll pd r h
    refine ⟨m1, hset, ?_⟩
    rw [hr]
    show -(senv.mllVals (zeroGrad m1).vals).sum = -(senv.mllVals m1.vals).sum
    rw [zeroGrad_vals]

/-- C2: for Loop B (`fit_scipy`) with tracking enabled, the number of
`OptimizationIteration` records returned equals the number of times the
external optimizer invoked the per-iteration callback, the records carry
indices `0..k-1` in invocation order, and — the wall clock being
monotone, as the spec's resource model assumes — their elapsed-time
values are non-decreasing. -/
theorem fit_scipy_iteration_records_match_callbacks (env : ScipyEnv)
    (oracle : MinimizeOracle) (clock : Nat → Rat) (mll m : MLLState)
    (its : List OptimizationIteration) (trace : List MLLState)
    (hmono : ∀ p q : Nat, p ≤ q → clock p ≤ clock q)
    (h : fit_scipy env oracle clock mll true = some (m, some its, trace)) :
    its.length = oracle.cbPoints.length ∧
    its.map OptimizationIteration.itr = List.range oracle.cbPoints.length ∧
    ∀ (p q : Nat) (a b : OptimizationIteration), p ≤ q →
      its[p]? = some a → its[q]? = some b → a.time ≤ b.time := by
  obtain ⟨m1, b0, m2, h1, h2, h3, hr⟩ :=
    fit_scipy_elim env oracle clock mll true _ h
  have hxs : (if (true : Bool) = true then oracle.cbPoints else []) =
      oracle.cbPoints := rfl
  rw [hxs] at h2
  have hits : its = b0.1 := by
    have h4 := congrArg (fun z =>
      (z : MLLState × Option (List OptimizationIteration) × List MLLState).2.1) hr
    simpa using h4
  obtain ⟨hitr, htime⟩ :=
    buildIterations_spec env (module_to_array mll).2 clock oracle.cbPoints 0 m1 b0 h2
  have hitr2 : b0.1.map OptimizationIteration.itr =
      List.range oracle.cbPoints.length := by
    rw [hitr]
    simp
  have htime2 : b0.1.map OptimizationIteration.time =
      (List.range oracle.cbPoints.length).map clock := by
    rw [htime]
    simp
  have hlen : b0.1.length = oracle.cbPoints.length := by
    have h5 := congrArg List.length hitr2
    simpa using h5
  rw [hits]
  refine ⟨hlen, hitr2, ?_⟩
  intro p q a b hpq hp hq
  have hpl : p < b0.1.length := by
    by_contra hc
    rw [List.getElem?_eq_none (by omega)] at hp
    exact Option.noConfusion hp
  have hql : q < b0.1.length := by
    by_contra hc
    rw [List.getElem?_eq_none (by omega)] at hq
    exact Option.noConfusion hq
  have hpa : a.time = clock p := by
    have h5 := congrArg (fun l => l[p]?) htime2
    simp only [List.getElem?_map] at h5
    rw [hp, List.getElem?_range (by omega : p < oracle.cbPoints.length)] at h5
    simp only [Option.map_some'] at h5
    exact Option.some.inj h5
  have hqb : b.time = clock q := by
    have h5 := congrArg (fun l => l[q]?) htime2
    simp only [List.getElem?_map] at h5
    rw [hq, List.getElem?_range (by omega : q < oracle.cbPoints.length)] at h5
    simp only [Option.map_some'] at h5
    exact Option.some.inj h5
  rw [hpa, hqb]
  exact hmono p q hpq

/-- C2 witness: the concrete tracked run with one callback invocation. -/
theorem fit_scipy_iteration_records_match_callbacks_witness :
    fit_scipy envS oracleW clock0 mllW true =
        some (finW, some [⟨0, -7, 0⟩], [midW]) ∧
      (([⟨0, -7, 0⟩] : List OptimizationIteration).length =
          oracleW.cbPoints.length ∧
        ([⟨0, -7, 0⟩] : List OptimizationIteration).map OptimizationIteration.itr =
          List.range oracleW.cbPoints.length ∧
        ∀ (p q : Nat) (a b : OptimizationIteration), p ≤ q →
          ([⟨0, -7, 0⟩] : List OptimizationIteration)[p]? = some a →
          ([⟨0, -7, 0⟩] : List OptimizationIteration)[q]? = some b →
          a.time ≤ b.time) :=
  ⟨by with_unfolding_all decide,
    fit_scipy_iteration_records_match_callbacks envS oracleW clock0 mllW finW
      [⟨0, -7, 0⟩] [midW] (fun p q h => le_refl 0)
      (by with_unfolding_all decide)⟩

/-- C3: Loop B (`fit_scipy`) always returns an iteration list — possibly
empty, never `None` — for every value of the tracking flag (with tracking
off the list is empty), unlike Loop A (`fit_torch`), which returns `None`
whenever tracking is disabled. -/
theorem fit_scipy_always_returns_list (env : ScipyEnv)
    (oracle : MinimizeOracle) (clock : Nat → Rat) (mll : MLLState)
    (track : Bool)
    (r : MLLState × Option (List OptimizationIteration) × List MLLState)
    (h : fit_scipy env oracle clock mll track = some r) :
    (∃ its, r.2.1 = some its) ∧
    (track = false → r.2.1 = some []) ∧
    (∀ (P : Type) (envA : TorchEnv P) (t0 : P) (disp : Bool) (maxiter : Int)
      (clockA : Nat → Rat) (check : List Rat → List P → Int → Bool)
      (fuel : Nat),
      (fit_torch envA t0 disp false maxiter clockA check fuel).2 = none) := by
  obtain ⟨m1, b0, m2, h1, h2, h3, hr⟩ :=
    fit_scipy_elim env oracle clock mll track r h
  subst hr
  refine ⟨⟨b0.1, rfl⟩, ?_, ?_⟩
  · intro ht
    subst ht
    have hxs : (if (false : Bool) = true then oracle.cbPoints else []) =
        ([] : List (List Rat)) := rfl
    rw [hxs] at h2
    have h2a : (some (([], m1, []) :
        List OptimizationIteration × MLLState × List MLLState)) = some b0 := h2
    obtain rfl : (([], m1, []) :
        List OptimizationIteration × MLLState × List MLLState) = b0 :=
      Option.some.inj h2a
    rfl
  · intro P envA t0 disp maxiter clockA check fuel
    simp [fit_torch]

/-- C3 witness: the concrete untracked run still returns a (empty) list. -/
theorem fit_scipy_always_returns_list_witness :
    fit_scipy envS oracleW clock0 mllW false = some (finW, some [], []) ∧
      ((∃ its, ((finW, some [], ([] : List MLLState)) :
          MLLState × Option (List OptimizationIteration) × List MLLState).2.1 =
            some its) ∧
        (false = false → ((finW, some [], ([] : List MLLState)) :
          MLLState × Option (List OptimizationIteration) × List MLLState).2.1 =
            some []) ∧
        (∀ (P : Type) (envA : TorchEnv P) (t0 : P) (disp : Bool) (maxiter : Int)
          (clockA : Nat → Rat) (check : List Rat → List P → Int → Bool)
          (fuel : Nat),
          (fit_torch envA t0 disp false maxiter clockA check fuel).2 = none)) :=
  ⟨by with_unfolding_all decide,
    fit_scipy_always_returns_list envS oracleW clock0 mllW false
      (finW, some [], []) (by with_unfolding_all decide)⟩

/-- C4 counterexample: the claim that intermediate callback-recorded
vectors are never written back into the model is false.  In this concrete
tracked run the callback recorded `[4, 5, 6]` and `res.x = [7, 8, 9]`;
during the post-minimize re-evaluation loop the adapter decodes each
recorded vector into the model, so the model transiently holds the values
`a = [4], b = [5, 6]` decoded from the callback vector, different from
the final decoded `res.x` values `a = [7], b = [8, 9]`. -/
theorem fit_scipy_intermediate_write_counterexample :
    fit_scipy envS oracleW clock0 mllW true =
      some (finW, some [⟨0, -7, 0⟩], [midW]) ∧
    midW.vals = [("a", [4]), ("b", [5, 6])] ∧
    finW.vals = [("a", [7]), ("b", [8, 9])] ∧
    midW.vals ≠ finW.vals := by
  refine ⟨?_, ?_, ?_, ?_⟩ <;> with_unfolding_all decide

/-- C4 (amended): after the external optimizer returns, the final
in-place update of the model — the state `fit_scipy` returns — is the
decode of the optimizer's final vector `res.x`, performed after all
tracked re-evaluations; the intermediate callback-recorded vectors are
written into the model only transiently during the tracked re-evaluation
and are always overwritten by this final decode. -/
theorem fit_scipy_final_decode_authoritative (env : ScipyEnv)
    (oracle : MinimizeOracle) (clock : Nat → Rat) (mll : MLLState)
    (track : Bool)
    (r : MLLState × Option (List OptimizationIteration) × List MLLState)
    (h : fit_scipy env oracle clock mll track = some r) :
    ∃ mpre, set_params_with_array mpre oracle.resx (module_to_array mll).2 =
      some r.1 := by
  obtain ⟨m1, b0, m2, h1, h2, h3, hr⟩ :=
    fit_scipy_elim env oracle clock mll track r h
  subst hr
  exact ⟨b0.2.1, h3⟩

/-- C4 witness: the final decode at the concrete tracked run. -/
theorem fit_scipy_final_decode_authoritative_witness :
    fit_scipy envS oracleW clock0 mllW true =
        some (finW, some [⟨0, -7, 0⟩], [midW]) ∧
      ∃ mpre, set_params_with_array mpre oracleW.resx (module_to_array mllW).2 =
        some ((finW, some [⟨0, -7, 0⟩], ([midW] : List MLLState)) :
          MLLState × Option (List OptimizationIteration) × List MLLState).1 :=
  ⟨by with_unfolding_all decide,
    fit_scipy_final_decode_authoritative envS oracleW clock0 mllW true
      (finW, some [⟨0, -7, 0⟩], [midW]) (by with_unfolding_all decide)⟩

/-- C5 witness: parameter "b" is disconnected from the loss; the adapter
succeeds and its slice for "b" is the zero vector of length 2. -/
theorem adapter_zero_gradient_policy_witness :
    set_params_with_array mllW xW pdW = some m1W ∧
    (∀ e ∈ pdW,
      (((backwardStep envS (zeroGrad m1W)).params.lookup e.1).isSome) = true) ∧
    pdW[1]? = some ("b", ⟨[2]⟩) ∧
    (backwardStep envS (zeroGrad m1W)).params.lookup "b" =
      some ⟨[2], [2, 3], none⟩ ∧
    (⟨[2], [2, 3], none⟩ : PTensor).grad = none ∧
    (∃ l g m', scipy_objective_and_grad envS xW mllW pdW = some ((l, g), m') ∧
      ∃ pieces : List (List Rat), g = pieces.flatten ∧
        pieces.length = pdW.length ∧
        pieces[1]? = some (List.replicate (⟨[2]⟩ : TorchAttr).numel 0)) :=
  ⟨by with_unfolding_all decide, by with_unfolding_all decide,
    by with_unfolding_all decide, by with_unfolding_all decide, rfl,
    adapter_zero_gradient_policy envS xW mllW m1W pdW 1 "b" ⟨[2]⟩
      ⟨[2], [2, 3], none⟩ (by with_unfolding_all decide)
      (by with_unfolding_all decide) (by with_unfolding_all decide)
      (by with_unfolding_all decide) rfl⟩

/-- C6 witness: the torch loop's loss trajectory and a concrete adapter
evaluation, both equal to the negated batch sum. -/
theorem loss_is_negative_summed_mll_witness :
    scipy_objective_and_grad envS xW mllW pdW = some ((-7, [1, 0, 0]), m4W) ∧
      ((fitTorchRun envT 0 true true 5 clock0 checkTrue 1).1.lossTraj =
        (List.range (fitTorchRun envT 0 true true 5 clock0 checkTrue 1).1.i).map
          (fun j => -((envT.mllVals (envT.step^[j] 0)).sum)) ∧
      ∃ m1, set_params_with_array mllW xW pdW = some m1 ∧
        ((((-7 : Rat), ([1, 0, 0] : List Rat)), m4W) :
          (Rat × List Rat) × MLLState).1.1 = -((envS.mllVals m1.vals).sum)) :=
  ⟨by with_unfolding_all decide,
    loss_is_negative_summed_mll envT 0 true true 5 clock0 checkTrue 1 envS xW
      mllW pdW ((-7, [1, 0, 0]), m4W) (by with_unfolding_all decide)⟩

/-- C7 witness: the adapter's returned model state at the concrete inputs
has only absent-or-zero gradients. -/
theorem adapter_clears_gradients_witness :
    scipy_objective_and_grad envS xW mllW pdW = some ((-7, [1, 0, 0]), m4W) ∧
    (∀ p ∈ ((((-7 : Rat), ([1, 0, 0] : List Rat)), m4W) :
        (Rat × List Rat) × MLLState).2.params,
      ∀ g, p.2.grad = some g → ∀ v ∈ g, v = 0) :=
  ⟨by with_unfolding_all decide,
    adapter_clears_gradients envS xW mllW pdW ((-7, [1, 0, 0]), m4W)
      (by with_unfolding_all decide)⟩
